import Mathlib

/-!
Shallow embedding of the market-snapshot and indicator pipeline of the
analizer repository (src/utils/math_tools.py, src/engine/data_fetcher.py,
src/engine/gemini_brain.py).

Python floats are modelled as rationals (ℚ); the Pearson correlation, which
genuinely needs a square root, is modelled over ℝ.  Fallible HTTP fetches are
modelled by passing the upstream outcome explicitly (`none` = transport error,
timeout, non-2xx status, or unparseable body — exactly the cases in which
`MarketConnector._get` returns `None`).  Python exceptions that escape a
function are modelled with `Except String`.
-/

namespace Analizer

/-! ### Python substring containment (`needle in haystack`) -/

def strStartsWith : List Char → List Char → Bool
  | [], _ => true
  | _ :: _, [] => false
  | c :: cs, d :: ds => c = d && strStartsWith cs ds

def substringOf (needle : List Char) : List Char → Bool
  | [] => strStartsWith needle []
  | d :: ds => strStartsWith needle (d :: ds) || substringOf needle ds

/-- Python `needle in haystack` on strings. -/
def pyIn (needle haystack : String) : Bool :=
  substringOf needle.data haystack.data

/-! ### Python dict primitives (insertion-ordered association lists) -/

def dictGet {α : Type} : List (String × α) → String → Option α
  | [], _ => none
  | (k, v) :: rest, key => if k = key then some v else dictGet rest key

def dictSet {α : Type} : List (String × α) → String → α → List (String × α)
  | [], k, v => [(k, v)]
  | (k0, v0) :: rest, k, v =>
      if k0 = k then (k0, v) :: rest else (k0, v0) :: dictSet rest k v

def hasKey {α : Type} (d : List (String × α)) (k : String) : Bool :=
  (dictGet d k).isSome

/-! ### utils/math_tools.py -/

/-- `calculate_vwap` (math_tools.py).  A trades DataFrame is modelled as the
list of its ("price", "amount") rows; the missing-column branch cannot arise
in the model because both columns are present by construction. -/
def calculate_vwap (trades : List (ℚ × ℚ)) : ℚ :=
  if trades = [] then 0
  else (trades.map (fun t => t.1 * t.2)).sum / (trades.map Prod.snd).sum

/-- `np.diff`: successive differences. -/
def diff : List ℚ → List ℚ
  | a :: b :: rest => (b - a) :: diff (b :: rest)
  | _ => []

/-- `calculate_rsi` (math_tools.py).  Note the seed window is
`deltas[:period+1]` — the first `period + 1` deltas — while both averages
divide by `period`. -/
def calculate_rsi (prices : List ℚ) (period : ℕ := 14) : ℚ :=
  if prices.length < period + 1 then 50
  else
    let deltas := diff prices
    let seed := deltas.take (period + 1)
    let up := (seed.filter (fun d => decide (0 ≤ d))).sum / period
    let down := -(seed.filter (fun d => decide (d < 0))).sum / period
    if down = 0 then 100
    else
      let rs := up / down
      100 - 100 / (1 + rs)

/-- `calculate_imbalance_ratio` (math_tools.py).  Order-book levels are
(price, amount) pairs, ccxt style. -/
def calculate_imbalance_ratio (bids asks : List (ℚ × ℚ)) (depth : ℕ := 10) : ℚ :=
  if bids = [] ∨ asks = [] then 1
  else
    let bid_vol := ((bids.take depth).map Prod.snd).sum
    let ask_vol := ((asks.take depth).map Prod.snd).sum
    if bid_vol = 0 then 999
    else ask_vol / bid_vol

/-- An order book as built by `MarketConnector.get_order_book`: the timestamp
is `none` when the Python dict holds `None` (or, for the gold-branch initial
book, lacks the key; the field is never read in either case). -/
structure OrderBook where
  bids : List (ℚ × ℚ)
  asks : List (ℚ × ℚ)
  timestamp : Option ℕ
deriving DecidableEq, Repr

/-- `calculate_ofi` (math_tools.py).  `none` models a Python-falsy book
argument (`None` or an empty dict), matching the guard
`if not previous_book or not current_book: return 0.0`. -/
def calculate_ofi (current_book previous_book : Option OrderBook) : ℚ :=
  match current_book, previous_book with
  | some cur, some prev =>
      let depth := 5
      let cur_bid_vol := ((cur.bids.take depth).map Prod.snd).sum
      let cur_ask_vol := ((cur.asks.take depth).map Prod.snd).sum
      let prev_bid_vol := ((prev.bids.take depth).map Prod.snd).sum
      let prev_ask_vol := ((prev.asks.take depth).map Prod.snd).sum
      (cur_bid_vol - prev_bid_vol) - (cur_ask_vol - prev_ask_vol)
  | _, _ => 0

/-- Arithmetic mean of a list (pandas mean). -/
def listMean (xs : List ℚ) : ℚ := xs.sum / xs.length

/-- Deviations from the mean. -/
def centered (xs : List ℚ) : List ℚ := xs.map (fun x => x - listMean xs)

/-- Sum of products of deviations; `covSum xs xs` is the (unnormalised)
variance, and Pearson r = covSum xs ys / sqrt (covSum xs xs * covSum ys ys)
— the 1/(n-1) normalisations cancel in the ratio pandas computes. -/
def covSum (xs ys : List ℚ) : ℚ :=
  (List.zipWith (· * ·) (centered xs) (centered ys)).sum

/-- Python `round(x, 3)` (modelled with round-half-up instead of round-half-
to-even; no verified statement sits at a tie). -/
noncomputable def round3 (x : ℝ) : ℝ := (round (x * 1000) : ℤ) / 1000

/-- `calculate_dxy_correlation` (math_tools.py).  pandas `Series.corr` yields
NaN exactly when a variance factor vanishes, and the code maps NaN to `0.0`;
the model tests the (equivalent, decidable) rational condition
`covSum gs gs * covSum ds ds = 0` instead of comparing the real square root
with zero. -/
noncomputable def calculate_dxy_correlation (gold_prices dxy_prices : List ℚ) : ℝ :=
  if gold_prices = [] ∨ dxy_prices = [] ∨ gold_prices.length ≠ dxy_prices.length then 0
  else if covSum gold_prices gold_prices * covSum dxy_prices dxy_prices = 0 then 0
  else round3 ((covSum gold_prices dxy_prices : ℝ) /
    Real.sqrt ((covSum gold_prices gold_prices : ℝ) * (covSum dxy_prices dxy_prices : ℝ)))

/-! ### engine/data_fetcher.py — MarketConnector -/

/-- The three analytical-context strings of `get_market_context`. -/
def gold_mode : String :=
  "Gold Mode: Prioritize DXY Inverse Correlation & Central Bank Traps."

def forex_mode : String :=
  "Forex Mode: Prioritize Session Time (London/NY) & Tick Velocity. Look for Stop Hunts around News."

def crypto_mode : String :=
  "Crypto Mode: Prioritize Open Interest, Funding Rates, and On-Chain Whale Movements."

/-- Guard of the metal branch of `get_market_context` (and of
`get_market_snapshot` / `get_technical_analysis`). -/
def is_metal_symbol (symbol : String) : Bool :=
  pyIn "XAU" symbol || pyIn "GOLD" symbol

/-- Guard of the forex branch of `get_market_context`. -/
def is_forex_symbol (symbol : String) : Bool :=
  pyIn "/" symbol &&
    (pyIn "EUR" symbol || pyIn "USD" symbol || pyIn "JPY" symbol || pyIn "GBP" symbol) &&
    !pyIn "USDT" symbol

/-- `MarketConnector.get_market_context` (data_fetcher.py lines 19-28). -/
def get_market_context (symbol : String) : String :=
  if is_metal_symbol symbol then gold_mode
  else if is_forex_symbol symbol then forex_mode
  else crypto_mode

/-- A JSON scalar as seen by Python `float(...)`: `numLike q` converts to `q`,
`junk` makes `float` raise `ValueError`. -/
inductive PyVal
  | numLike (q : ℚ)
  | junk
deriving DecidableEq, Repr

def pyFloat : PyVal → Option ℚ
  | .numLike q => some q
  | .junk => none

/-- `MarketConnector.get_price` (data_fetcher.py lines 44-49).  `fetched` is
the outcome of `_get("ticker/price", ...)`: `none` on any transport/parse
failure inside `_get`, otherwise the decoded JSON object.  `float(data["price"])`
sits outside any try-block, so a missing key or a non-numeric value raises. -/
def get_price (fetched : Option (List (String × PyVal))) : Except String ℚ :=
  match fetched with
  | none => .ok 0
  | some data =>
      if data = [] then .ok 0  -- an empty dict is falsy: `if data:` fails
      else
        match dictGet data "price" with
        | none => .error "KeyError"
        | some v =>
            match pyFloat v with
            | none => .error "ValueError"
            | some q => .ok q

/-- Decoded `/depth` payload (string-valued prices/quantities already parsed;
a key missing upstream is folded into an empty list, matching
`data.get("bids", [])`). -/
structure DepthPayload where
  bids : List (ℚ × ℚ)
  asks : List (ℚ × ℚ)
deriving DecidableEq, Repr

/-- `MarketConnector.get_order_book` (data_fetcher.py lines 85-100).
`now_ms` is `int(time.time() * 1000)` at the fetch attempt. -/
def get_order_book (fetched : Option DepthPayload) (now_ms : ℕ) : OrderBook :=
  match fetched with
  | none => { bids := [], asks := [], timestamp := none }
  | some data => { bids := data.bids, asks := data.asks, timestamp := some now_ms }

/-- A raw upstream trade (fields already parsed from their string forms). -/
structure TradeRaw where
  time : ℕ
  isBuyerMaker : Bool
  price : ℚ
  qty : ℚ
deriving DecidableEq, Repr

/-- A normalized trade row as produced by `get_recent_trades`. -/
structure Trade where
  timestamp : ℕ
  symbol : String
  side : String
  price : ℚ
  amount : ℚ
deriving DecidableEq, Repr

/-- `MarketConnector.get_recent_trades` (data_fetcher.py lines 102-128). -/
def get_recent_trades (symbol : String) (fetched : Option (List TradeRaw)) : List Trade :=
  match fetched with
  | none => []
  | some data =>
      data.map (fun t =>
        { timestamp := t.time, symbol := symbol,
          side := if t.isBuyerMaker then "sell" else "buy",
          price := t.price, amount := t.qty })

/-- `MarketConnector.get_dxy_data`: `closes` is the fetched history
("[]" models both an upstream failure and an empty frame). -/
def get_dxy_data (closes : List ℚ) : List ℚ × ℚ :=
  (closes, (closes.getLast?).getD 0)

/-- `MarketConnector.get_gold_price_yfinance`. -/
def get_gold_price_yfinance (closes : List ℚ) : ℚ :=
  (closes.getLast?).getD 0

/-- `MarketConnector.get_crypto_funding_rate`: the decoded
(lastFundingRate, markPrice) pair, or `(0, 0)` when `_get` failed. -/
def get_crypto_funding_rate (fetched : Option (ℚ × ℚ)) : ℚ × ℚ :=
  fetched.getD (0, 0)

/-- A snapshot-dict value (`get_market_snapshot` builds a heterogeneous
Python dict). -/
inductive SVal
  | str (s : String)
  | tstamp (n : ℕ)
  | num (q : ℚ)
  | book (b : OrderBook)
  | trades (ts : List Trade)
  | qs (l : List ℚ)
deriving DecidableEq, Repr

/-- One snapshot build's upstream outcomes: each field is what the
corresponding single-attempt fetch produced. -/
structure Upstream where
  tickerPrice : Option (List (String × PyVal))
  goldCloses : List ℚ
  depth : Option DepthPayload
  trades : Option (List TradeRaw)
  premium : Option (ℚ × ℚ)
  dxyCloses : List ℚ
  now_ms : ℕ
deriving Repr

/-- `MarketConnector.get_market_snapshot` (data_fetcher.py lines 130-173).
Note: no branch ever inserts an "error" key. -/
def get_market_snapshot (u : Upstream) (symbol : String) :
    Except String (List (String × SVal)) := do
  let snapshot0 : List (String × SVal) :=
    [("symbol", .str symbol),
     ("timestamp", .tstamp u.now_ms),
     ("order_book", .book { bids := [], asks := [], timestamp := none }),
     ("recent_trades", .trades []),
     ("dxy_closes", .qs []),
     ("dxy_price", .num 0),
     ("funding_rate", .num 0),
     ("mark_price", .num 0)]
  let snapshot1 ←
    if is_metal_symbol symbol then
      pure (dictSet snapshot0 "price" (.num (get_gold_price_yfinance u.goldCloses)))
    else do
      let price ← get_price u.tickerPrice
      let s := dictSet snapshot0 "price" (.num price)
      let s := dictSet s "order_book" (.book (get_order_book u.depth u.now_ms))
      let s := dictSet s "recent_trades" (.trades (get_recent_trades symbol u.trades))
      let fm := get_crypto_funding_rate u.premium
      let s := dictSet s "funding_rate" (.num fm.1)
      let s := dictSet s "mark_price" (.num fm.2)
      pure s
  let dxy := get_dxy_data u.dxyCloses
  let s := dictSet snapshot1 "dxy_closes" (.qs dxy.1)
  let s := dictSet s "dxy_price" (.num dxy.2)
  return s

/-! ### engine/gemini_brain.py — GeminiAnalyzer.get_technical_analysis -/

def getNum (d : List (String × SVal)) (k : String) (default : ℚ) : ℚ :=
  match dictGet d k with
  | some (.num q) => q
  | _ => default

def getQs (d : List (String × SVal)) (k : String) : List ℚ :=
  match dictGet d k with
  | some (.qs l) => l
  | _ => []

/-- `snapshot.get("order_book", {})` followed by Python truthiness: `none`
models a falsy (absent or empty) book dict, `some b` a populated one. -/
def getBookOpt (d : List (String × SVal)) (k : String) : Option OrderBook :=
  match dictGet d k with
  | some (.book b) => some b
  | _ => none

def getTrades (d : List (String × SVal)) (k : String) : List Trade :=
  match dictGet d k with
  | some (.trades ts) => ts
  | _ => []

/-- The OFI read-modify-write step of `get_technical_analysis`
(gemini_brain.py lines 114-119): compute OFI only when a previous book is
stored for `symbol` and the current book is truthy, then unconditionally
store the truthy current book. -/
def ofi_update (previous_books : List (String × OrderBook)) (symbol : String)
    (order_book : Option OrderBook) : ℚ × List (String × OrderBook) :=
  let ofi : ℚ :=
    match dictGet previous_books symbol, order_book with
    | some prev, some cur => calculate_ofi (some cur) (some prev)
    | _, _ => 0
  let pb :=
    match order_book with
    | some cur => dictSet previous_books symbol cur
    | none => previous_books
  (ofi, pb)

/-- The macro summary content (the code renders these fields into an
f-string; the formatting itself carries no further information). -/
inductive MacroInfo
  | goldInfo (dxy_price : ℚ) (trendPoints : ℕ)
  | cryptoInfo (funding_rate : ℚ) (mark_price : ℚ)
deriving DecidableEq, Repr

/-- The indicator record `get_technical_analysis` hands to the caller on its
normal path.  There is no error field in it. -/
structure TARecord where
  symbol : String
  current_price : ℚ
  macro_data : MacroInfo
  vwap : ℚ
  rsi : ℚ
  volume_imbalance_ratio : ℚ
  order_flow_imbalance : ℚ
  dxy_price : ℚ
  funding_rate : ℚ
  top_bid : Option (ℚ × ℚ)
  top_ask : Option (ℚ × ℚ)
deriving DecidableEq, Repr

/-- What `get_technical_analysis` returns: either the dict with the single
"error" key, or the indicator record. -/
inductive TAResult
  | err (msg : String)
  | ok (r : TARecord)
deriving DecidableEq, Repr

/-- `GeminiAnalyzer.get_technical_analysis` (gemini_brain.py lines 79-140),
including the mutation of `self.previous_books` (returned alongside the
result).  `Except.error` models an uncaught Python exception escaping to the
caller. -/
def get_technical_analysis (u : Upstream) (previous_books : List (String × OrderBook))
    (symbol : String) : Except String (TAResult × List (String × OrderBook)) := do
  let snapshot ← get_market_snapshot u symbol
  if hasKey snapshot "error" ∧ getNum snapshot "dxy_price" 0 = 0 then
    return (.err "Could not fetch data", previous_books)
  let current_price := getNum snapshot "price" 0
  let dxy_price := getNum snapshot "dxy_price" 0
  let dxy_closes := getQs snapshot "dxy_closes"
  let funding_rate := getNum snapshot "funding_rate" 0
  let order_book := getBookOpt snapshot "order_book"
  let bids := match order_book with | some b => b.bids | none => []
  let asks := match order_book with | some b => b.asks | none => []
  let trades := getTrades snapshot "recent_trades"
  let vwap := if trades ≠ [] then calculate_vwap (trades.map (fun t => (t.price, t.amount))) else 0
  let rsi := if trades ≠ [] then calculate_rsi (trades.map Trade.price) 14 else 50
  let imbalance_ratio := calculate_imbalance_ratio bids asks 10
  let ou := ofi_update previous_books symbol order_book
  let macro_data :=
    if is_metal_symbol symbol then MacroInfo.goldInfo dxy_price dxy_closes.length
    else MacroInfo.cryptoInfo funding_rate (getNum snapshot "mark_price" 0)
  return (.ok
    { symbol := symbol
      current_price := current_price
      macro_data := macro_data
      vwap := vwap
      rsi := rsi
      volume_imbalance_ratio := imbalance_ratio
      order_flow_imbalance := ou.1
      dxy_price := dxy_price
      funding_rate := funding_rate
      top_bid := bids.head?
      top_ask := asks.head? }, ou.2)

/-! ### Helper lemmas (shared) -/

lemma sum_nonpos_of_all (l : List ℚ) (h : ∀ x ∈ l, x ≤ 0) : l.sum ≤ 0 := by
  induction l with
  | nil => simp
  | cons a tl ih =>
      simp only [List.sum_cons]
      have ha := h a (List.mem_cons_self a tl)
      have htl := ih (fun x hx => h x (List.mem_cons_of_mem a hx))
      linarith

lemma sum_neg_of_all (l : List ℚ) (h : ∀ x ∈ l, x < 0) (hne : l ≠ []) : l.sum < 0 := by
  cases l with
  | nil => exact absurd rfl hne
  | cons a tl =>
      simp only [List.sum_cons]
      have ha := h a (List.mem_cons_self a tl)
      have htl := sum_nonpos_of_all tl (fun x hx => le_of_lt (h x (List.mem_cons_of_mem a hx)))
      linarith

lemma sum_nonneg_of_all (l : List ℚ) (h : ∀ x ∈ l, 0 ≤ x) : 0 ≤ l.sum := by
  induction l with
  | nil => simp
  | cons a tl ih =>
      simp only [List.sum_cons]
      have ha := h a (List.mem_cons_self a tl)
      have htl := ih (fun x hx => h x (List.mem_cons_of_mem a hx))
      linarith

lemma sum_pos_of_mem (l : List ℚ) (h : ∀ x ∈ l, 0 ≤ x) (a : ℚ) (ha : a ∈ l) (hpos : 0 < a) :
    0 < l.sum := by
  induction l with
  | nil => cases ha
  | cons b tl ih =>
      simp only [List.sum_cons]
      have htl := sum_nonneg_of_all tl (fun x hx => h x (List.mem_cons_of_mem b hx))
      rcases List.mem_cons.mp ha with hb | hmem
      · subst hb; linarith
      · have hb := h b (List.mem_cons_self b tl)
        have := ih (fun x hx => h x (List.mem_cons_of_mem b hx)) hmem
        linarith

lemma map_neg_sum (l : List ℚ) : (l.map (fun x => -x)).sum = -l.sum := by
  induction l with
  | nil => simp
  | cons a tl ih => simp [ih]; ring

lemma zipWith_self_map (f : ℚ → ℚ → ℚ) (l : List ℚ) :
    List.zipWith f l l = l.map (fun x => f x x) := by
  induction l with
  | nil => rfl
  | cons a tl ih => simp [ih]

lemma zipWith_right_map (f : ℚ → ℚ → ℚ) (g : ℚ → ℚ) (l : List ℚ) :
    List.zipWith f l (l.map g) = l.map (fun x => f x (g x)) := by
  induction l with
  | nil => rfl
  | cons a tl ih => simp [ih]

/-! ### Claim theorems -/

/-- Claim C1 (code bug): on a total-failure snapshot build for "BTC/USDT"
(price fetch fails so price is 0.0, depth fetch fails so the book is empty,
trade/funding/macro fetches fail too) `get_technical_analysis` returns the
plain indicator record with neutral values — vwap 0, rsi 50, imbalance 1,
OFI 0, price 0 — and stores the empty book, instead of the
`.err "Could not fetch data"` record the spec requires: no branch of
`get_market_snapshot` ever inserts the "error" key the guard tests for. -/
theorem C1_total_failure_returns_plain_record :
    get_technical_analysis
        { tickerPrice := none, goldCloses := [], depth := none, trades := none,
          premium := none, dxyCloses := [], now_ms := 1700000000000 } [] "BTC/USDT" =
      Except.ok (TAResult.ok
        { symbol := "BTC/USDT", current_price := 0, macro_data := .cryptoInfo 0 0,
          vwap := 0, rsi := 50, volume_imbalance_ratio := 1, order_flow_imbalance := 0,
          dxy_price := 0, funding_rate := 0, top_bid := none, top_ask := none },
        [("BTC/USDT", { bids := [], asks := [], timestamp := none })]) := by
  rfl

/-- Claim C2: classification is by priority — a symbol with a metal token
("XAU"/"GOLD") is metal; otherwise one with the pair separator "/" and a
recognized fiat code ("EUR"/"USD"/"JPY"/"GBP") but without "USDT" is forex;
otherwise crypto — and the three context strings are pairwise distinct, so
each symbol gets exactly one class.  "XAUUSD" is metal, "EUR/USD" forex,
"EUR/USDT" and "BTC/USDT" crypto. -/
theorem C2_symbol_classification :
    (∀ s : String, is_metal_symbol s = true → get_market_context s = gold_mode) ∧
    (∀ s : String, is_metal_symbol s = false → is_forex_symbol s = true →
      get_market_context s = forex_mode) ∧
    (∀ s : String, is_metal_symbol s = false → is_forex_symbol s = false →
      get_market_context s = crypto_mode) ∧
    (gold_mode ≠ forex_mode ∧ gold_mode ≠ crypto_mode ∧ forex_mode ≠ crypto_mode) ∧
    get_market_context "XAUUSD" = gold_mode ∧
    get_market_context "EUR/USD" = forex_mode ∧
    get_market_context "EUR/USDT" = crypto_mode ∧
    get_market_context "BTC/USDT" = crypto_mode := by
  refine ⟨?_, ?_, ?_, ⟨by decide, by decide, by decide⟩,
    by decide, by decide, by decide, by decide⟩
  · intro s h; simp [get_market_context, h]
  · intro s h1 h2; simp [get_market_context, h1, h2]
  · intro s h1 h2; simp [get_market_context, h1, h2]

/-- Witness for C2: the metal branch applied to "XAUUSD". -/
theorem C2_symbol_classification_witness :
    get_market_context "XAUUSD" = gold_mode :=
  C2_symbol_classification.1 "XAUUSD" (by decide)

/-- Claim C4, counterexample: when the depth fetch fails (`_get` returned
`None`), `get_order_book` sets the timestamp to Python `None`, not to the
fetch-attempt time — the claim asserts an integer epoch-millis timestamp,
never null. -/
theorem C4_counterexample :
    (get_order_book none 12345).timestamp = none ∧
    (get_order_book none 12345).timestamp ≠ some 12345 := by
  decide

/-- Claim C4 as amended: on fetch failure `get_order_book` returns empty bid
and ask sequences with a NULL timestamp; only on a successful fetch is the
timestamp the fetch-attempt time. -/
theorem C4_failure_book_shape :
    (∀ now_ms : ℕ,
      get_order_book none now_ms = { bids := [], asks := [], timestamp := none }) ∧
    (∀ (d : DepthPayload) (now_ms : ℕ),
      get_order_book (some d) now_ms =
        { bids := d.bids, asks := d.asks, timestamp := some now_ms }) :=
  ⟨fun _ => rfl, fun _ _ => rfl⟩

/-- Claim C5, counterexample: a success-status response whose JSON body is the
nonempty object containing only "foo" makes `get_price` raise `KeyError`
(`float(data["price"])` sits outside the try-block of `_get`), contradicting
"never raises an exception to the caller". -/
theorem C5_counterexample :
    get_price (some [("foo", PyVal.numLike 1)]) = Except.error "KeyError" := by
  rfl

/-- Claim C5 as amended: `get_price` returns 0.0 when the underlying fetch
failed (or decoded to the falsy empty object) and returns the parsed price
when a nonempty payload carries a float-parseable "price"; but a nonempty
success payload without such a field raises to the caller. -/
theorem C5_get_price_behaviour (fetched : Option (List (String × PyVal))) :
    (fetched = none → get_price fetched = .ok 0) ∧
    (fetched = some [] → get_price fetched = .ok 0) ∧
    (∀ d, fetched = some d → d ≠ [] → ∀ q, (dictGet d "price").bind pyFloat = some q →
      get_price fetched = .ok q) ∧
    (∀ d, fetched = some d → d ≠ [] → (dictGet d "price").bind pyFloat = none →
      ∃ m, get_price fetched = .error m) := by
  refine ⟨?_, ?_, ?_, ?_⟩
  · rintro rfl; rfl
  · rintro rfl; rfl
  · rintro d rfl hne q hq
    cases hd : dictGet d "price" with
    | none => rw [hd] at hq; simp at hq
    | some v =>
        rw [hd] at hq
        simp only [Option.some_bind] at hq
        simp [get_price, hne, hd, hq]
  · rintro d rfl hne hq
    cases hd : dictGet d "price" with
    | none => exact ⟨"KeyError", by simp [get_price, hne, hd]⟩
    | some v =>
        rw [hd] at hq
        simp only [Option.some_bind] at hq
        exact ⟨"ValueError", by simp [get_price, hne, hd, hq]⟩

/-- Witness for C5: a payload carrying a numeric "price" is parsed. -/
theorem C5_get_price_behaviour_witness :
    get_price (some [("price", PyVal.numLike 5)]) = .ok 5 :=
  (C5_get_price_behaviour (some [("price", PyVal.numLike 5)])).2.2.1
    [("price", PyVal.numLike 5)] rfl (by decide) 5 (by decide)

/-- The imbalance rule exactly as claim C6 words it (spec-side definition,
for comparison with `calculate_imbalance_ratio`): the 999.0 sentinel applies
only when bid volume is zero AND ask volume is positive. -/
def imbalance_ratio_claimed (bids asks : List (ℚ × ℚ)) (depth : ℕ := 10) : ℚ :=
  if bids = [] ∨ asks = [] then 1
  else
    let bid_vol := ((bids.take depth).map Prod.snd).sum
    let ask_vol := ((asks.take depth).map Prod.snd).sum
    if bid_vol = 0 ∧ 0 < ask_vol then 999
    else ask_vol / bid_vol

/-- Claim C6, counterexample: with nonempty sides whose sizes are all zero
(bids [[100,0]], asks [[101,0]]) the code returns the 999.0 sentinel even
though ask volume is not positive, while the claim's rule falls through to
ask/bid = 0/0 (≠ 999). -/
theorem C6_counterexample :
    calculate_imbalance_ratio [(100, 0)] [(101, 0)] 10 = 999 ∧
    imbalance_ratio_claimed [(100, 0)] [(101, 0)] 10 = 0 ∧
    (999 : ℚ) ≠ 0 := by
  refine ⟨?_, ?_, by norm_num⟩
  · norm_num [calculate_imbalance_ratio, List.take]
  · norm_num [imbalance_ratio_claimed, List.take]

/-- Claim C6 as amended: ratio 1.0 when either side is empty; 999.0 whenever
both sides are nonempty and top-10 bid volume is exactly zero, regardless of
ask volume; otherwise top-10 ask volume / top-10 bid volume — and the claim's
worked example bids [[100,2],[99,3]], asks [[101,5],[102,5]] gives 2.0. -/
theorem C6_imbalance_cases (bids asks : List (ℚ × ℚ)) :
    (bids = [] ∨ asks = [] → calculate_imbalance_ratio bids asks 10 = 1) ∧
    (bids ≠ [] → asks ≠ [] → ((bids.take 10).map Prod.snd).sum = 0 →
      calculate_imbalance_ratio bids asks 10 = 999) ∧
    (bids ≠ [] → asks ≠ [] → ((bids.take 10).map Prod.snd).sum ≠ 0 →
      calculate_imbalance_ratio bids asks 10 =
        ((asks.take 10).map Prod.snd).sum / ((bids.take 10).map Prod.snd).sum) ∧
    calculate_imbalance_ratio [(100, 2), (99, 3)] [(101, 5), (102, 5)] 10 = 2 := by
  refine ⟨?_, ?_, ?_, ?_⟩
  · intro h; simp [calculate_imbalance_ratio, h]
  · intro h1 h2 h0
    have hor : ¬(bids = [] ∨ asks = []) := by tauto
    simp only [calculate_imbalance_ratio, if_neg hor]
    rw [if_pos h0]
  · intro h1 h2 h0
    have hor : ¬(bids = [] ∨ asks = []) := by tauto
    simp only [calculate_imbalance_ratio, if_neg hor]
    rw [if_neg h0]
  · norm_num [calculate_imbalance_ratio, List.take]
    exact ⟨by simp, by simp⟩

/-- Witness for C6: both sides empty gives the neutral ratio 1.0. -/
theorem C6_imbalance_cases_witness :
    calculate_imbalance_ratio [] [] 10 = 1 :=
  (C6_imbalance_cases [] []).1 (Or.inl rfl)

/-- Claim C7: in the brain's OFI step, the very first observation of a symbol
(no previous book stored) yields 0.0; with a stored previous book the result
is (current bid volume − previous bid volume) − (current ask volume −
previous ask volume), volumes summed over the top 5 levels; and the worked
example — previous top-5 volumes (10,10), current (15,8) — gives 7. -/
theorem C7_ofi_first_observation_and_delta :
    (∀ (symbol : String) (cur : OrderBook) (previous_books : List (String × OrderBook)),
      dictGet previous_books symbol = none →
      (ofi_update previous_books symbol (some cur)).1 = 0) ∧
    (∀ (symbol : String) (cur prev : OrderBook)
        (previous_books : List (String × OrderBook)),
      dictGet previous_books symbol = some prev →
      (ofi_update previous_books symbol (some cur)).1 =
        (((cur.bids.take 5).map Prod.snd).sum - ((prev.bids.take 5).map Prod.snd).sum) -
          (((cur.asks.take 5).map Prod.snd).sum - ((prev.asks.take 5).map Prod.snd).sum)) ∧
    calculate_ofi (some { bids := [(100, 15)], asks := [(101, 8)], timestamp := none })
        (some { bids := [(100, 10)], asks := [(101, 10)], timestamp := none }) = 7 := by
  refine ⟨?_, ?_, by norm_num [calculate_ofi, List.take]⟩
  · intro symbol cur previous_books h
    simp [ofi_update, h]
  · intro symbol cur prev previous_books h
    simp [ofi_update, h, calculate_ofi]

/-- Witness for C7: first observation of "BTC/USDT" with the empty store. -/
theorem C7_ofi_first_observation_and_delta_witness :
    (ofi_update [] "BTC/USDT"
      (some { bids := [], asks := [], timestamp := none })).1 = 0 :=
  C7_ofi_first_observation_and_delta.1 "BTC/USDT"
    { bids := [], asks := [], timestamp := none } [] rfl

/-- Claim C8, counterexample: the single trade [(price 5, size 0)] is a
nonempty all-same-price sequence, but total size is 0 so the code divides
0 by 0 (NaN in Python, junk value 0 in the rational model) — not the claimed
price 5. -/
theorem C8_counterexample :
    calculate_vwap [(5, 0)] = 0 ∧ (0 : ℚ) ≠ 5 := by
  exact ⟨by norm_num [calculate_vwap], by norm_num⟩

/-- Claim C8 as amended: VWAP of an empty trade sequence is 0.0, and of a
nonempty sequence of trades all at price p with NONZERO total size it is
exactly p regardless of the individual sizes. -/
theorem C8_vwap_constant_price (p : ℚ) (trades : List (ℚ × ℚ)) :
    calculate_vwap [] = 0 ∧
    (trades ≠ [] → (∀ t ∈ trades, t.1 = p) → (trades.map Prod.snd).sum ≠ 0 →
      calculate_vwap trades = p) := by
  refine ⟨rfl, ?_⟩
  intro hne hp hsum
  have hnum : ∀ (l : List (ℚ × ℚ)), (∀ t ∈ l, t.1 = p) →
      (l.map (fun t => t.1 * t.2)).sum = p * (l.map Prod.snd).sum := by
    intro l
    induction l with
    | nil => simp
    | cons a tl ih =>
        intro ha
        have h1 := ha a (List.mem_cons_self a tl)
        have h2 := ih (fun t ht => ha t (List.mem_cons_of_mem a ht))
        simp [h1, h2, mul_add]
  simp only [calculate_vwap, if_neg hne, hnum trades hp]
  field_simp

/-- Witness for C8: two trades at price 5 with sizes 2 and 3. -/
theorem C8_vwap_constant_price_witness :
    calculate_vwap [(5, 2), (5, 3)] = 5 :=
  (C8_vwap_constant_price 5 [(5, 2), (5, 3)]).2 (by simp) (by norm_num) (by norm_num)

/-- The RSI formula exactly as claim C3 words it (spec-side definition, for
comparison with `calculate_rsi`): a window of `period` deltas, each average
taken with divisor `period`. -/
def rsi_claimed (prices : List ℚ) (period : ℕ := 14) : ℚ :=
  let deltas := diff prices
  let seed := deltas.take period
  let up := (seed.filter (fun d => decide (0 ≤ d))).sum / period
  let down := -(seed.filter (fun d => decide (d < 0))).sum / period
  100 - 100 / (1 + up / down)

/-- Claim C3, counterexample: the 16-point sequence
[0,1,0,...,0,5] satisfies the claim's preconditions (length ≥ 15 and a
negative delta in the window), yet the code — whose seed is the first
`period + 1` = 15 deltas, so it sees the final +5 delta — returns 600/7,
while the claim's 14-delta window yields 50. -/
theorem C3_counterexample :
    (15 : ℕ) ≤ ([0, 1, 0, 0, 0, 0, 0, 0, 0, 0, 0, 0, 0, 0, 0, 5] : List ℚ).length ∧
    (∃ d ∈ (diff [0, 1, 0, 0, 0, 0, 0, 0, 0, 0, 0, 0, 0, 0, 0, 5]).take 14, d < 0) ∧
    calculate_rsi [0, 1, 0, 0, 0, 0, 0, 0, 0, 0, 0, 0, 0, 0, 0, 5] 14 = 600 / 7 ∧
    rsi_claimed [0, 1, 0, 0, 0, 0, 0, 0, 0, 0, 0, 0, 0, 0, 0, 5] 14 = 50 ∧
    (600 / 7 : ℚ) ≠ 50 := by
  refine ⟨by norm_num, ⟨-1, by norm_num [diff, List.take], by norm_num⟩, ?_, ?_, by norm_num⟩
  · norm_num [calculate_rsi, diff, List.take]
  · norm_num [rsi_claimed, diff, List.take]

/-- Claim C3 as amended: for prices of length ≥ period+1 = 15 whose seed
window — the first period+1 = 15 successive deltas, not period = 14 — holds
at least one negative delta, RSI = 100 − 100/(1 + up/down) with up the sum of
the nonnegative window deltas divided by 14 and down the negated sum of the
negative window deltas divided by 14. -/
theorem C3_rsi_formula (prices : List ℚ) (hlen : 15 ≤ prices.length)
    (hneg : ∃ d ∈ (diff prices).take 15, d < 0) :
    calculate_rsi prices 14 =
      100 - 100 / (1 +
        ((((diff prices).take 15).filter (fun d => decide (0 ≤ d))).sum / 14) /
        (-((((diff prices).take 15).filter (fun d => decide (d < 0))).sum) / 14)) := by
  obtain ⟨d0, hd0, hd0neg⟩ := hneg
  have hmem : d0 ∈ ((diff prices).take 15).filter (fun d => decide (d < 0)) :=
    List.mem_filter.mpr ⟨hd0, by simpa using hd0neg⟩
  have hall : ∀ x ∈ ((diff prices).take 15).filter (fun d => decide (d < 0)), x < 0 := by
    intro x hx
    simpa using (List.mem_filter.mp hx).2
  have hSne : ((diff prices).take 15).filter (fun d => decide (d < 0)) ≠ [] := by
    intro h; rw [h] at hmem; cases hmem
  have hsum : (((diff prices).take 15).filter (fun d => decide (d < 0))).sum < 0 :=
    sum_neg_of_all _ hall hSne
  have h1 : ¬ prices.length < 14 + 1 := by omega
  have hdown :
      -(((diff prices).take (14 + 1)).filter (fun d => decide (d < 0))).sum / ((14 : ℕ) : ℚ)
        ≠ 0 := by
    have h15 : (14 : ℕ) + 1 = 15 := rfl
    rw [h15]
    have hpos : (0 : ℚ) <
        -(((diff prices).take 15).filter (fun d => decide (d < 0))).sum / ((14 : ℕ) : ℚ) := by
      apply div_pos (by linarith) (by norm_num)
    exact ne_of_gt hpos
  simp only [calculate_rsi, if_neg h1, if_neg hdown]
  norm_num

/-- Witness for C3: a 15-point sequence whose sole nonzero delta is −1. -/
theorem C3_rsi_formula_witness :
    calculate_rsi [1, 0, 0, 0, 0, 0, 0, 0, 0, 0, 0, 0, 0, 0, 0] 14 =
      100 - 100 / (1 +
        ((((diff [1, 0, 0, 0, 0, 0, 0, 0, 0, 0, 0, 0, 0, 0, 0]).take 15).filter
            (fun d => decide (0 ≤ d))).sum / 14) /
        (-((((diff [1, 0, 0, 0, 0, 0, 0, 0, 0, 0, 0, 0, 0, 0, 0]).take 15).filter
            (fun d => decide (d < 0))).sum) / 14)) :=
  C3_rsi_formula [1, 0, 0, 0, 0, 0, 0, 0, 0, 0, 0, 0, 0, 0, 0] (by norm_num)
    ⟨-1, by norm_num [diff, List.take], by norm_num⟩

lemma diff_take (xs : List ℚ) : ∀ n : ℕ, diff (xs.take (n + 1)) = (diff xs).take n := by
  induction xs with
  | nil => intro n; simp [diff]
  | cons a tl ih =>
      intro n
      cases tl with
      | nil => cases n <;> simp [diff]
      | cons b rest =>
          cases n with
          | zero => simp [diff]
          | succ m =>
              have h := ih m
              simp only [List.take_succ_cons] at h
              simp only [List.take_succ_cons, diff, h]

/-- Claim C10: RSI depends only on the oldest 16 prices — for every price
sequence of length ≥ 16, `calculate_rsi` of the whole sequence equals
`calculate_rsi` of its first 16 elements, because the seed is the first 15
successive deltas. -/
theorem C10_rsi_prefix (prices : List ℚ) (h : 16 ≤ prices.length) :
    calculate_rsi prices 14 = calculate_rsi (prices.take 16) 14 := by
  have h1 : ¬ prices.length < 14 + 1 := by omega
  have hlen : (prices.take 16).length = 16 := by
    rw [List.length_take]; omega
  have h2 : ¬ (prices.take 16).length < 14 + 1 := by omega
  have hd : diff (prices.take 16) = (diff prices).take 15 := diff_take prices 15
  simp only [calculate_rsi, if_neg h1, if_neg h2, hd, List.take_take]
  norm_num

/-- Witness for C10: a 17-point sequence — dropping its newest point does not
change the RSI. -/
theorem C10_rsi_prefix_witness :
    calculate_rsi [0, 5, 1, 2, 3, 4, 5, 6, 7, 8, 9, 10, 11, 12, 13, 14, 100] 14 =
      calculate_rsi
        (([0, 5, 1, 2, 3, 4, 5, 6, 7, 8, 9, 10, 11, 12, 13, 14, 100] : List ℚ).take 16) 14 :=
  C10_rsi_prefix [0, 5, 1, 2, 3, 4, 5, 6, 7, 8, 9, 10, 11, 12, 13, 14, 100] (by norm_num)

/-! ### Correlation helper lemmas -/

lemma covSum_self (gs : List ℚ) :
    covSum gs gs = ((centered gs).map (fun x => x * x)).sum := by
  rw [covSum, zipWith_self_map]

lemma covSum_self_pos (gs : List ℚ) (h : ∃ a ∈ gs, ∃ b ∈ gs, a ≠ b) :
    0 < covSum gs gs := by
  obtain ⟨a, ha, b, hb, hab⟩ := h
  have hx : ∃ x ∈ gs, x ≠ listMean gs := by
    by_contra hc
    push_neg at hc
    exact hab ((hc a ha).trans (hc b hb).symm)
  obtain ⟨x, hxg, hxne⟩ := hx
  rw [covSum_self]
  apply sum_pos_of_mem _ ?_ ((x - listMean gs) * (x - listMean gs)) ?_ ?_
  · intro y hy
    obtain ⟨z, _, rfl⟩ := List.mem_map.mp hy
    exact mul_self_nonneg z
  · exact List.mem_map.mpr ⟨x - listMean gs,
      List.mem_map.mpr ⟨x, hxg, rfl⟩, rfl⟩
  · exact mul_self_pos.mpr (sub_ne_zero.mpr hxne)

lemma listMean_map_neg (gs : List ℚ) :
    listMean (gs.map (fun x => -x)) = -listMean gs := by
  rw [listMean, listMean, map_neg_sum, List.length_map, neg_div]

lemma centered_map_neg (gs : List ℚ) :
    centered (gs.map (fun x => -x)) = (centered gs).map (fun x => -x) := by
  rw [centered, centered, listMean_map_neg, List.map_map, List.map_map]
  have : ((fun x : ℚ => -x) ∘ fun x => x - listMean gs) =
      ((fun x : ℚ => x - -listMean gs) ∘ fun x => -x) := by
    funext x; simp; ring
  rw [this]

lemma covSum_neg_right (gs : List ℚ) :
    covSum gs (gs.map (fun x => -x)) = -covSum gs gs := by
  rw [covSum, centered_map_neg, zipWith_right_map, covSum_self]
  have : (fun x : ℚ => x * -x) = (fun x : ℚ => -x * x) := by funext x; ring
  rw [this]
  have h2 : ((centered gs).map fun x => -x * x) =
      ((centered gs).map fun x => x * x).map (fun x => -x) := by
    rw [List.map_map]
    have : ((fun x : ℚ => -x) ∘ fun x => x * x) = (fun x : ℚ => -x * x) := by
      funext x; simp only [Function.comp_apply]; ring
    rw [this]
  rw [h2, map_neg_sum]

lemma covSum_neg_both (gs : List ℚ) :
    covSum (gs.map (fun x => -x)) (gs.map (fun x => -x)) = covSum gs gs := by
  rw [covSum, centered_map_neg, zipWith_self_map, List.map_map, covSum_self]
  have : ((fun x : ℚ => x * x) ∘ fun x => -x) = (fun x : ℚ => x * x) := by
    funext x; simp
  rw [this]

lemma round3_one : round3 1 = 1 := by
  have h : ((1 : ℝ) * 1000) = ((1000 : ℤ) : ℝ) := by norm_num
  rw [round3, h, round_intCast]
  norm_num

lemma round3_neg_one : round3 (-1) = -1 := by
  have h : ((-1 : ℝ) * 1000) = ((-1000 : ℤ) : ℝ) := by norm_num
  rw [round3, h, round_intCast]
  norm_num

/-- Claim C9, counterexample: the constant series [2,2,2] compared with
itself has an undefined (NaN) Pearson correlation, which the code maps to
0.0 — not the 1.0 the claim asserts for "every series compared with
itself". -/
theorem C9_counterexample :
    calculate_dxy_correlation [2, 2, 2] [2, 2, 2] = 0 ∧ (0 : ℝ) ≠ 1 := by
  constructor
  · have h0 : covSum [2, 2, 2] [2, 2, 2] = 0 := by
      norm_num [covSum, centered, listMean, zipWith_self_map]
    simp only [calculate_dxy_correlation]
    rw [if_neg (by simp), if_pos (by rw [h0]; ring)]
  · norm_num

/-- Claim C9 as amended: correlation requires both series nonempty and of
equal length (else 0.0); an undefined (NaN) correlation — zero variance on
either side — maps to 0.0, which is also what a CONSTANT series compared
with itself produces; every NON-constant series compared with itself gives
1.0 and compared with its exact negation gives −1.0 (exact values, so the
3-decimal rounding is the identity on them). -/
theorem C9_correlation (gs ds : List ℚ) :
    (gs = [] ∨ ds = [] ∨ gs.length ≠ ds.length → calculate_dxy_correlation gs ds = 0) ∧
    (covSum gs gs * covSum ds ds = 0 → calculate_dxy_correlation gs ds = 0) ∧
    ((∃ a ∈ gs, ∃ b ∈ gs, a ≠ b) → calculate_dxy_correlation gs gs = 1) ∧
    ((∃ a ∈ gs, ∃ b ∈ gs, a ≠ b) →
      calculate_dxy_correlation gs (gs.map (fun x => -x)) = -1) := by
  refine ⟨?_, ?_, ?_, ?_⟩
  · intro h
    simp only [calculate_dxy_correlation]
    rw [if_pos h]
  · intro h
    simp only [calculate_dxy_correlation]
    by_cases hc : gs = [] ∨ ds = [] ∨ gs.length ≠ ds.length
    · rw [if_pos hc]
    · rw [if_neg hc, if_pos h]
  · intro h
    have hS : 0 < covSum gs gs := covSum_self_pos gs h
    have hne : gs ≠ [] := by
      rintro rfl
      obtain ⟨a, ha, _⟩ := h
      cases ha
    simp only [calculate_dxy_correlation]
    rw [if_neg (by simp [hne]), if_neg (mul_ne_zero (ne_of_gt hS) (ne_of_gt hS))]
    have hSR : (0 : ℝ) < ((covSum gs gs : ℚ) : ℝ) := by exact_mod_cast hS
    rw [Real.sqrt_mul_self (le_of_lt hSR), div_self (ne_of_gt hSR)]
    exact round3_one
  · intro h
    have hS : 0 < covSum gs gs := covSum_self_pos gs h
    have hne : gs ≠ [] := by
      rintro rfl
      obtain ⟨a, ha, _⟩ := h
      cases ha
    simp only [calculate_dxy_correlation]
    rw [covSum_neg_right, covSum_neg_both]
    rw [if_neg (by simp [hne]), if_neg (mul_ne_zero (ne_of_gt hS) (ne_of_gt hS))]
    have hSR : (0 : ℝ) < ((covSum gs gs : ℚ) : ℝ) := by exact_mod_cast hS
    rw [Real.sqrt_mul_self (le_of_lt hSR)]
    push_cast
    rw [neg_div, div_self (ne_of_gt hSR)]
    exact round3_neg_one

/-- Witness for C9: the non-constant series [1,2] against itself. -/
theorem C9_correlation_witness :
    calculate_dxy_correlation [1, 2] [1, 2] = 1 :=
  (C9_correlation [1, 2] [1, 2]).2.2.1
    ⟨1, by norm_num, 2, by norm_num, by norm_num⟩

end Analizer
